import Mathlib

/-!
Verification development for the CurrencyRates-django repository.

Shallow embedding of `currency_test/methods.py`, `currency_test/tasks.py`
and the relevant parts of `currency_test/models.py`.

Modelling conventions:
- Python strings are `List Char` (`Str` below); `str.strip()` is modelled as
  removal of the ASCII whitespace characters Python strips by default.
- Python dictionaries are insertion-ordered association lists; `dict.get`
  is first-match lookup (keys produced by the code are unique).
- Dynamically typed rate values (string or int) are a sum type `PyVal`.
- A normalised rate record is a structure whose `Option` fields mark the
  presence or absence of the corresponding dictionary key (the code puts a
  `nominal` key on real records but a `scale` key on error placeholders).
- Raised Python exceptions are `Except PyExc` results; the `requests`
  library's `RequestException` is modelled separately (`ReqExc`) because
  `tasks.py` catches only that class.
- `datetime` instants are abstract integers; `strptime('%d.%m.%Y')` plus
  `pytz.utc.localize` is modelled by the injective encoding `parseDateEnc`
  (midnight of the quoted date); `datetime.now()` instants are parameters
  in the same encoding.
-/

namespace CurrencyRates

/-- Python strings, modelled as lists of characters. -/
abbrev Str := List Char

/-- Characters removed by Python's default `str.strip()` (ASCII part). -/
def isPySpace (c : Char) : Bool :=
  decide (c = ' ') || decide (c = '\t') || decide (c = '\n') || decide (c = '\r') ||
    decide (c = '\x0b') || decide (c = '\x0c')

/-- Model of `s.replace('/', '')`: removes every slash. -/
def removeSlash (s : Str) : Str := s.filter (fun c => decide (c ≠ '/'))

/-- Model of `s.replace('*', '')`: removes every star. -/
def removeStar (s : Str) : Str := s.filter (fun c => decide (c ≠ '*'))

/-- Model of `s.replace(a, b)` for single characters. -/
def replaceChar (a b : Char) (s : Str) : Str := s.map (fun c => if c = a then b else c)

/-- Model of `s.rstrip(',')`. -/
def rstripComma (s : Str) : Str := (s.reverse.dropWhile (fun c => decide (c = ','))).reverse

/-- Model of `s.strip()`. -/
def pyStrip (s : Str) : Str := ((s.dropWhile isPySpace).reverse.dropWhile isPySpace).reverse

/-- Model of `s.upper()` (ASCII). -/
def pyUpper (s : Str) : Str := s.map Char.toUpper

/-- Model of `s.split(sep)` for a single-character separator: like Python,
the empty string splits to `[""]`. -/
def splitChar (sep : Char) : Str → List Str
  | [] => [[]]
  | c :: cs =>
    match splitChar sep cs with
    | [] => [[]]
    | t :: ts => if c = sep then [] :: t :: ts else (c :: t) :: ts

/-- Dynamically typed Python value (string or integer), as used for the
`rate` and `nominal` entries of the response dictionaries. -/
inductive PyVal where
  | str : Str → PyVal
  | int : Int → PyVal
deriving DecidableEq

/-- Python truthiness for `PyVal`: the empty string and `0` are falsy. -/
def pyTruthy : PyVal → Bool
  | .str s => !s.isEmpty
  | .int n => decide (n ≠ 0)

/-- The `error` sub-dictionary of a record: code and description strings. -/
structure ErrInfo where
  code : Str
  description : Str
deriving DecidableEq

/-- One normalised rate record, i.e. one of the dictionaries produced by
`prepare_data` / `handle_response` / `add_currency_not_found_error` in
`methods.py`.  `Option` fields model the presence of the dictionary key:
real records carry `nominal` and no `scale`; the error placeholder built by
`add_currency_not_found_error` carries `scale` (value `0`) and no
`nominal`. -/
structure Record where
  rate_date : Str
  currency_from : Str
  currency_to : Str
  rate : PyVal
  nominal : Option PyVal := none
  scale : Option PyVal := none
  error : Option ErrInfo := none
deriving DecidableEq

/-- String constants used by the code. -/
def strZero : Str := "0".toList

def strRUB : Str := "RUB".toList

def str404 : Str := "404".toList

def strCurrencyNotFound : Str := "Currency not found".toList

def strConnectionError : Str := "ConnectionError".toList

def strDup429 : Str := "429 ".toList

def strDuplicate : Str := "Duplicate".toList

def strPrice : Str := "price".toList

/-- Model of `BaseMethod.prepare_tickers` (methods.py lines 73-93):
if `self.tickers` is truthy (non-empty), remove every `/`, strip trailing
commas, split on commas and trim-and-uppercase every token; otherwise
return the empty list. -/
def prepare_tickers (tickers : Str) : List Str :=
  if tickers = [] then []
  else (splitChar ',' (rstripComma (removeSlash tickers))).map (fun t => pyUpper (pyStrip t))

/-- The `'to'` / `'from'` option string passed to `find_key`. -/
inductive CurrOpt where
  | cto
  | cfrom
deriving DecidableEq

/-- The `value['currency_' + option]` projection used by `find_key`. -/
def currField (r : Record) : CurrOpt → Str
  | .cto => r.currency_to
  | .cfrom => r.currency_from

/-- Model of `BaseMethod.find_key` (methods.py lines 95-101): strip every
`*` from the token, then collect, in dictionary order, the keys of every
entry whose selected currency field equals the stripped token. -/
def find_key (res_dict : List (Str × Record)) (currency : Str) (opt : CurrOpt) : List Str :=
  (res_dict.filter (fun kv => decide (currField kv.2 opt = removeStar currency))).map Prod.fst

/-- Model of Python `dict.get(k, dflt)` over an insertion-ordered
association list with unique keys (first match). -/
def dictGet : List (Str × Record) → Str → Record → Record
  | [], _, dflt => dflt
  | (k2, v2) :: t, k, dflt => if k = k2 then v2 else dictGet t k dflt

/-- Model of `BaseMethod.add_currency_not_found_error` (methods.py lines
156-172).  Note the placeholder stores the zero multiplier under the
`scale` key (not `nominal`) and sets `currency_to` to
`self.base_currency or currency`. -/
def add_currency_not_found_error (base : Option Str) (currency date : Str) : Record :=
  { rate_date := date,
    currency_from := currency,
    currency_to := match base with
      | some s => if s = [] then currency else s
      | none => currency,
    rate := PyVal.str strZero,
    nominal := none,
    scale := some (PyVal.int 0),
    error := some ⟨str404, strCurrencyNotFound⟩ }

/-- Test for `currency[0] == '*'` (guarded in the source by
`'*' in currency`, which implies non-emptiness). -/
def headIsStar : Str → Bool
  | [] => false
  | c :: _ => decide (c = '*')

/-- Test for `currency[-1] == '*'`. -/
def lastIsStar (s : Str) : Bool := headIsStar s.reverse

/-- One iteration of the `for currency in tickers` loop body of
`BaseMethod.handle_response` (methods.py lines 142-153): the list of
records appended for one token. -/
def handleStep (base : Option Str) (res_dict : List (Str × Record)) (date : Str)
    (currency : Str) : List Record :=
  if decide ('*' ∈ currency) && headIsStar currency then
    (find_key res_dict currency .cto).map
      (fun k => dictGet res_dict k (add_currency_not_found_error base currency date))
  else if decide ('*' ∈ currency) && lastIsStar currency then
    (find_key res_dict currency .cfrom).map
      (fun k => dictGet res_dict k (add_currency_not_found_error base currency date))
  else
    [dictGet res_dict currency (add_currency_not_found_error base currency date)]

/-- The ticker-driven part of `BaseMethod.handle_response` (methods.py
lines 136-154), given the already-parsed `(res_dict, date)` pair: with no
tickers, return every dictionary value in insertion order; otherwise run
the accumulator loop over the tokens. -/
def handleTokens (base : Option Str) (res_dict : List (Str × Record)) (date : Str)
    (tokens : List Str) : List Record :=
  if tokens = [] then res_dict.map Prod.snd
  else tokens.foldl (fun acc cur => acc ++ handleStep base res_dict date cur) []

/-- Model of `BaseMethod.handle_response` (methods.py lines 103-154) with
the adapter's `prepare_data` output `(res_dict, date)` supplied as an
argument. -/
def handle_response (base : Option Str) (tickers : Str) (res_dict : List (Str × Record))
    (date : Str) : List Record :=
  handleTokens base res_dict date (prepare_tickers tickers)

/-! CBRF adapter (`CBRFMethod`, methods.py lines 203-232).  The XML body,
as parsed by `xmltodict`, is modelled already destructured into the
`ValCurs` element: its `@Date` attribute and the list of `Valute`
elements, every text field a string. -/

/-- One `Valute` element of the CBRF XML, as seen through `xmltodict`:
`CharCode`, `Value` (comma-decimal string) and the optional `Nominal`
text, all strings. -/
structure Valute where
  charCode : Str
  value : Str
  nominal : Option Str
deriving DecidableEq

/-- The `ValCurs` element: `@Date` attribute plus `Valute` children. -/
structure ValCurs where
  date : Str
  valute : List Valute
deriving DecidableEq

/-- Model of `CBRFMethod.prepare_data` (methods.py lines 217-232): for
every `Valute` entry, a record keyed by `CharCode`, with `currency_to`
fixed to the adapter's base currency `RUB`, the comma decimal separator of
`Value` replaced by a dot, and `nominal` the `Nominal` text *string*
(xmltodict yields strings), defaulting to the empty string.  `CharCode`
values are assumed distinct, matching the successive-`update` dictionary
construction of the source. -/
def cbrf_prepare_data (vc : ValCurs) : List (Str × Record) × Str :=
  (vc.valute.map (fun v =>
    (v.charCode,
      { rate_date := vc.date,
        currency_from := v.charCode,
        currency_to := strRUB,
        rate := PyVal.str (replaceChar ',' '.' v.value),
        nominal := some (PyVal.str (v.nominal.getD [])),
        scale := none,
        error := none })), vc.date)

/-- `CBRFMethod` response handling: `handle_response` with
`self.base_currency = 'RUB'` over the output of `cbrf_prepare_data`. -/
def cbrf_handle_response (tickers : Str) (vc : ValCurs) : List Record :=
  handle_response (some strRUB) tickers (cbrf_prepare_data vc).1 (cbrf_prepare_data vc).2

/-! Two-phase adapters: per-pair rate lookups (`BinanceMethod.request_rate`,
methods.py lines 283-288, and `GarantexMethod.request_rate`, lines
341-346). -/

/-- A parsed JSON object with string/int leaves, enough for the per-pair
rate endpoints. -/
abbrev PyDict := List (Str × PyVal)

/-- First-match lookup in a JSON object (`dict.get(k)`, returning `None`
when absent). -/
def pdictGet : PyDict → Str → Option PyVal
  | [], _ => none
  | (k2, v) :: t, k => if k = k2 then some v else pdictGet t k

/-- Model of Python `x or 0` applied to an optional JSON field. -/
def pyOrZero : Option PyVal → PyVal
  | none => PyVal.int 0
  | some v => if pyTruthy v then v else PyVal.int 0

/-- Python exceptions relevant to the modelled code: the bare `Exception`
raised by every `validate_tickers`, the `IndexError` of `list[0]` on an
empty list, and the `ValueError`/`InvalidOperation` of `strptime` /
`Decimal` on malformed input. -/
inductive PyExc where
  | exception
  | indexError
  | valueError
deriving DecidableEq

/-- Model of `BinanceMethod.request_rate` (methods.py lines 283-288):
`response.json().get('price') or 0`. -/
def binance_request_rate (respJson : PyDict) : PyVal :=
  pyOrZero (pdictGet respJson strPrice)

/-- Model of `GarantexMethod.request_rate` (methods.py lines 341-346):
`response.json()[0].get('price') or 0`; indexing an empty trade list
raises `IndexError`. -/
def garantex_request_rate (respJson : List PyDict) : Except PyExc PyVal :=
  match respJson with
  | [] => .error .indexError
  | d :: _ => .ok (pyOrZero (pdictGet d strPrice))

/-- The record built by `_make_dct` inside `BinanceMethod.prepare_data`
(methods.py lines 296-304): no `error` key, `nominal` 1. -/
def binance_make_dct_record (date base quote : Str) (rate : PyVal) : Record :=
  { rate_date := date,
    currency_from := base,
    currency_to := quote,
    rate := rate,
    nominal := some (PyVal.int 1),
    scale := none,
    error := none }

/-- The record built by `_make_dct` inside `GarantexMethod.prepare_data`
(methods.py lines 354-362): ask/bid units uppercased, no `error` key,
`nominal` 1. -/
def garantex_make_dct_record (date ask bid : Str) (rate : PyVal) : Record :=
  { rate_date := date,
    currency_from := pyUpper ask,
    currency_to := pyUpper bid,
    rate := rate,
    nominal := some (PyVal.int 1),
    scale := none,
    error := none }

/-! Ticker validation (the `validate_tickers` overrides of the five
adapter classes) and the fetch orchestrator
(`run_currency_rate_checker`, tasks.py lines 16-79). -/

/-- The five configured adapter methods (`currency_test/consts.py`). -/
inductive MethodKind where
  | cbrf
  | ecb
  | binance
  | garantex
  | xe
deriving DecidableEq

/-- The per-adapter ticker acceptance test, from the `validate_tickers`
overrides: CBRF/ECB require length exactly 3 (methods.py lines 212-215 and
244-247), Binance/Garantex reject length below 2 (lines 278-281 and
336-339), XE rejects length below 3 (lines 397-400). -/
def tickerLenOk (k : MethodKind) (t : Str) : Bool :=
  match k with
  | .cbrf => decide (t.length = 3)
  | .ecb => decide (t.length = 3)
  | .binance => !decide (t.length < 2)
  | .garantex => !decide (t.length < 2)
  | .xe => !decide (t.length < 3)

/-- The length rule of the claim, per adapter variant: exactly 3
characters for CBRF/ECB, at least 2 for Binance/Garantex, at least 3 for
XE.  `violatesRule k t` states that token `t` breaks variant `k`'s rule. -/
def violatesRule (k : MethodKind) (t : Str) : Prop :=
  match k with
  | .cbrf => t.length ≠ 3
  | .ecb => t.length ≠ 3
  | .binance => t.length < 2
  | .garantex => t.length < 2
  | .xe => t.length < 3

/-- The `for ticker in self.prepare_tickers()` validation loop: raises a
bare `Exception` at the first offending token. -/
def validateLoop (k : MethodKind) : List Str → Except PyExc Unit
  | [] => .ok ()
  | t :: ts => if tickerLenOk k t then validateLoop k ts else .error .exception

/-- Model of the `validate_tickers` overrides: validate every prepared
token against the adapter's length rule. -/
def validate_tickers (k : MethodKind) (tickers : Str) : Except PyExc Unit :=
  validateLoop k (prepare_tickers tickers)

/-- Digit-string to number (for the date and decimal codecs). -/
def digitsVal (l : List Char) : Nat :=
  l.foldl (fun a c => a * 10 + (c.toNat - '0'.toNat)) 0

/-- Every character a decimal digit. -/
def allDigits (l : List Char) : Bool := l.all Char.isDigit

/-- Model of `pytz.utc.localize(datetime.strptime(s, '%d.%m.%Y'))` as an
injective integer encoding of the instant (midnight UTC of the quoted
date); malformed input, on which `strptime` raises, yields `none`. -/
def parseDateEnc (s : Str) : Option Int :=
  match splitChar '.' s with
  | [d, m, y] =>
    if allDigits d && allDigits m && allDigits y &&
        !d.isEmpty && !m.isEmpty && !y.isEmpty then
      some ((digitsVal y : Int) * 10000 + (digitsVal m : Int) * 100 + (digitsVal d : Int))
    else none
  | _ => none

/-- Unsigned part of the decimal codec, as a normalised rational
`(integer-part * 10^k + fraction-part) / 10^k`. -/
def parseDecQBody (s : Str) : Option ℚ :=
  match splitChar '.' s with
  | [i] => if allDigits i && !i.isEmpty then some (mkRat (digitsVal i) 1) else none
  | [i, f] =>
    if allDigits i && allDigits f && !(i.isEmpty && f.isEmpty) then
      some (mkRat ((digitsVal i : Int) * ((10 : Int) ^ f.length) + (digitsVal f : Int))
        ((10 : Nat) ^ f.length))
    else none
  | _ => none

/-- Decimal string to rational: digits, optionally one dot; at least one
digit; optional leading minus.  Inputs on which Python's `Decimal` raises
yield `none`. -/
def parseDecQ (s : Str) : Option ℚ :=
  match s with
  | '-' :: body => (parseDecQBody body).map Rat.neg
  | _ => parseDecQBody s

/-- Model of `Decimal(new_rate.get('rate') or '0')` (tasks.py line 36). -/
def decimalOfPyVal (v : PyVal) : Option ℚ :=
  match (if pyTruthy v then v else PyVal.str strZero) with
  | .int n => some (mkRat n 1)
  | .str s => parseDecQ s

/-- A persisted `CurrencyRate` row (`currency_test/models.py`). -/
structure StoredRate where
  rate_type_id : Int
  currency_from : Str
  currency_to : Str
  rate : ℚ
  rate_date : Int
  nominal : Option PyVal
deriving DecidableEq

/-- The existence filter of `create_rate` (tasks.py lines 37-44): the
dedup key compares rate type, currency pair, the *parsed* quote date `d`,
the decimal rate `q` and the nominal. -/
def dedupMatch (rid : Int) (d : Int) (q : ℚ) (r : Record) (row : StoredRate) : Bool :=
  decide (row.rate_type_id = rid) && decide (row.currency_from = r.currency_from) &&
    decide (row.currency_to = r.currency_to) && decide (row.rate_date = d) &&
    decide (row.rate = q) && decide (row.nominal = r.nominal)

/-- Model of the inner `create_rate` of `run_currency_rate_checker`
(tasks.py lines 27-57) *combined with* `CurrencyRate.save` of models.py,
which overwrites `rate_date` with `datetime.now()` on every insert (the
field is also `auto_now_add=True`): error records are passed through
untouched; for a real record the quote date and rate are parsed (raising
out of the task on malformed input), existence is checked against the
dedup key, an absent record is inserted with `rate_date := now`, and a
present one is annotated in the returned summary with code `'429 '`
(trailing space as in the source) / `Duplicate`.  Returns the store after
the traversal and the summary list (or the uncaught exception). -/
def create_rate (rid : Int) (now : Int) :
    List StoredRate → List Record → List StoredRate × Except PyExc (List Record)
  | store, [] => (store, .ok [])
  | store, r :: rs =>
    if r.error.isNone then
      match parseDateEnc r.rate_date, decimalOfPyVal r.rate with
      | some d, some q =>
        if store.any (dedupMatch rid d q r) then
          match create_rate rid now store rs with
          | (store2, .ok out) =>
            (store2, .ok ({ r with error := some ⟨strDup429, strDuplicate⟩ } :: out))
          | (store2, .error e) => (store2, .error e)
        else
          match create_rate rid now
              (store ++ [⟨rid, r.currency_from, r.currency_to, q, now, r.nominal⟩]) rs with
          | (store2, .ok out) => (store2, .ok (r :: out))
          | (store2, .error e) => (store2, .error e)
      | _, _ => (store, .error .valueError)
    else
      match create_rate rid now store rs with
      | (store2, .ok out) => (store2, .ok (r :: out))
      | (store2, .error e) => (store2, .error e)

/-- The run summary written to `autoload_lastresult`: either the
normalised (and dedup-annotated) record list, or the single-element
status-code/reason list built on transport failure. -/
inductive RunResult where
  | records : List Record → RunResult
  | failure : List (Int × Str) → RunResult
deriving DecidableEq

/-- A `CurrencyRateType` configuration row, as read and written by the
task (`currency_test/models.py`). -/
structure RateTypeConfig where
  base_currency : Option Str
  tickers : Str
  autoload_method : MethodKind
  autoload_lastrun : Option Int
  autoload_lastresult : Option RunResult
deriving DecidableEq

/-- The `requests` library's `RequestException`, carrying an optional
response with upstream status code and reason; `tasks.py` catches exactly
this class. -/
structure ReqExc where
  response : Option (Int × Str)
deriving DecidableEq

/-- Outcome of one invocation of the task: the config row was missing; an
exception escaped the task (config and store rows unwritten); or the task
completed, saving the updated config and store.  `requested` records
whether the request stage was reached. -/
inductive TaskRun where
  | noConfig
  | raised (exc : PyExc) (requested : Bool) (store : List StoredRate)
  | completed (cfg : RateTypeConfig) (store : List StoredRate) (requested : Bool)
deriving DecidableEq

/-- Model of `run_currency_rate_checker` (tasks.py lines 16-79).  The
network is abstracted by `reqResult`, the outcome the `make_request` call
would produce: a normalised record list, or the `RequestException` it
raises.  A bare `Exception` from `validate_tickers` is not a
`RequestException`, so it escapes before any request; on `RequestException`
the summary is the single-element status/reason list (or `500` /
`ConnectionError` without a response); otherwise `create_rate` runs and
the summary is its returned list.  `autoload_lastrun` and
`autoload_lastresult` are saved on every non-raising path. -/
def run_currency_rate_checker (cfgOpt : Option RateTypeConfig) (rid : Int)
    (store : List StoredRate) (task_time : Int) (now : Int)
    (reqResult : Except ReqExc (List Record)) : TaskRun :=
  match cfgOpt with
  | none => .noConfig
  | some rate_type =>
    match validate_tickers rate_type.autoload_method rate_type.tickers with
    | .error e => .raised e false store
    | .ok _ =>
      match reqResult with
      | .error exc =>
        let summary : RunResult :=
          match exc.response with
          | some (code, reason) => .failure [(code, reason)]
          | none => .failure [(500, strConnectionError)]
        .completed
          { rate_type with autoload_lastrun := some task_time,
                           autoload_lastresult := some summary } store true
      | .ok records =>
        match create_rate rid now store records with
        | (store2, .error e) => .raised e true store2
        | (store2, .ok summary) =>
          .completed
            { rate_type with autoload_lastrun := some task_time,
                             autoload_lastresult := some (.records summary) } store2 true

/-! Specification-side definitions, written from the spec's words, used to
compare against the source embedding for the refinement-style claims. -/

/-- Spec-side slash removal (written from the spec's words, with a
different recursion than the source embedding). -/
def specRemoveSlashes (s : Str) : Str :=
  s.foldr (fun c acc => if c = '/' then acc else c :: acc) []

/-- Spec-side trailing-comma stripping (structural recursion rather than
the reverse/dropWhile of the source embedding). -/
def specStripTrailingCommas : Str → Str
  | [] => []
  | c :: cs =>
    match specStripTrailingCommas cs with
    | [] => if c = ',' then [] else [c]
    | d :: ds => c :: d :: ds

/-- Spec-side token normalisation: trim then uppercase. -/
def specNormalizeToken (t : Str) : Str := pyUpper (pyStrip t)

/-- The token pipeline exactly as the spec words it: remove every `/`,
strip trailing commas, split on commas, trim and uppercase each token. -/
def specTickerPipeline (s : Str) : List Str :=
  (splitChar ',' (specStripTrailingCommas (specRemoveSlashes s))).map specNormalizeToken

/-- The TickerSpec parser as the claim states it: empty *or
whitespace-only* input yields the empty sequence, otherwise the
pipeline. -/
def spec_prepare_tickers_asWritten (s : Str) : List Str :=
  if pyStrip s = [] then [] else specTickerPipeline s

/-- The TickerSpec parser as amended: only the genuinely empty input
yields the empty sequence (a whitespace-only string is truthy in Python
and flows through the pipeline, yielding one empty token). -/
def spec_prepare_tickers_amended (s : Str) : List Str :=
  if s = [] then [] else specTickerPipeline s

/-- Per-token resolution as the amended claim C1 describes it: an exact
token yields exactly one entry (the matching record, or the error
placeholder); a prefix-star token yields the records whose `currency_to`
equals the stripped token, in dictionary order; a trailing-star token the
records whose `currency_from` equals it; a wildcard with zero matches
yields zero entries. -/
def specTokenResolve (base : Option Str) (res_dict : List (Str × Record)) (date : Str)
    (tok : Str) : List Record :=
  if decide ('*' ∈ tok) && headIsStar tok then
    (res_dict.filter (fun kv => decide (kv.2.currency_to = removeStar tok))).map Prod.snd
  else if decide ('*' ∈ tok) && lastIsStar tok then
    (res_dict.filter (fun kv => decide (kv.2.currency_from = removeStar tok))).map Prod.snd
  else
    [dictGet res_dict tok (add_currency_not_found_error base tok date)]

/-! Concrete sample data for witnesses and counterexamples. -/

/-- A sample real record (USD quoted against RUB). -/
def sampleUSD : Record :=
  { rate_date := "d".toList,
    currency_from := "USD".toList,
    currency_to := strRUB,
    rate := PyVal.str ("90.50".toList),
    nominal := some (PyVal.int 1),
    scale := none,
    error := none }

/-- A sample pair record USD to EUR. -/
def sampleUSDEUR : Record :=
  { rate_date := "d".toList,
    currency_from := "USD".toList,
    currency_to := "EUR".toList,
    rate := PyVal.str ("1.1".toList),
    nominal := some (PyVal.int 1),
    scale := none,
    error := none }

/-- A sample pair record USD to GBP. -/
def sampleUSDGBP : Record :=
  { rate_date := "d".toList,
    currency_from := "USD".toList,
    currency_to := "GBP".toList,
    rate := PyVal.str ("0.8".toList),
    nominal := some (PyVal.int 1),
    scale := none,
    error := none }

/-- A two-entry provider dictionary. -/
def sampleDict : List (Str × Record) :=
  [("USDEUR".toList, sampleUSDEUR), ("USDGBP".toList, sampleUSDGBP)]

/-- A configuration whose CBRF ticker violates the 3-character rule. -/
def sampleBadCfg : RateTypeConfig :=
  { base_currency := none,
    tickers := "US".toList,
    autoload_method := .cbrf,
    autoload_lastrun := none,
    autoload_lastresult := none }

/-- A configuration that passes validation (no tickers configured). -/
def sampleOkCfg : RateTypeConfig :=
  { base_currency := none,
    tickers := [],
    autoload_method := .cbrf,
    autoload_lastrun := none,
    autoload_lastresult := none }

/-- The CBRF scenario of the spec: two `Valute` entries, `USD` with
Nominal `1` and Value `90,50`, `EUR` with Nominal `1` and Value
`100,00`, document date `08.06.2023`. -/
def cbrfScenario : ValCurs :=
  ⟨"08.06.2023".toList,
   [⟨"USD".toList, "90,50".toList, some ("1".toList)⟩,
    ⟨"EUR".toList, "100,00".toList, some ("1".toList)⟩]⟩

/-- A sample normalised record carrying a parseable quote date, used for
the persistence scenario. -/
def c6Record : Record :=
  { rate_date := "08.06.2023".toList,
    currency_from := "USD".toList,
    currency_to := strRUB,
    rate := PyVal.str ("90.50".toList),
    nominal := some (PyVal.int 1),
    scale := none,
    error := none }

/-! Helper lemmas about the embedding. -/

theorem foldl_append_flatten (f : Str → List Record) (l : List Str) :
    ∀ acc : List Record, l.foldl (fun a c => a ++ f c) acc = acc ++ (l.map f).flatten := by
  induction l with
  | nil => intro acc; simp
  | cons h t ih => intro acc; simp [ih, List.append_assoc]

theorem dictGet_eq_of_mem (d : List (Str × Record)) (k : Str) (v : Record) (dflt : Record)
    (hnd : (d.map Prod.fst).Nodup) (hmem : (k, v) ∈ d) : dictGet d k dflt = v := by
  induction d with
  | nil => cases hmem
  | cons hd tl ih =>
    obtain ⟨k2, v2⟩ := hd
    rw [List.map_cons, List.nodup_cons] at hnd
    rcases List.mem_cons.mp hmem with heq | htl
    · have h1 : k = k2 := congrArg Prod.fst heq
      have h2 : v = v2 := congrArg Prod.snd heq
      simp [dictGet, h1, h2]
    · have hk : ¬ k = k2 := by
        intro h
        apply hnd.1
        rw [Prod.fst]
        rw [h] at htl
        exact List.mem_map.mpr ⟨(k2, v), htl, rfl⟩
      simp only [dictGet, if_neg hk]
      exact ih hnd.2 htl

theorem dictGet_mem_or_eq_dflt (d : List (Str × Record)) (k : Str) (dflt : Record) :
    dictGet d k dflt ∈ d.map Prod.snd ∨ dictGet d k dflt = dflt := by
  induction d with
  | nil => exact Or.inr rfl
  | cons hd tl ih =>
    obtain ⟨k2, v2⟩ := hd
    by_cases h : k = k2
    · left
      simp only [dictGet, if_pos h, List.map_cons]
      exact List.mem_cons_self _ _
    · simp only [dictGet, if_neg h, List.map_cons]
      rcases ih with hmem | hdf
      · exact Or.inl (List.mem_cons_of_mem _ hmem)
      · exact Or.inr hdf

theorem removeStar_eq_self (s : Str) (h : '*' ∉ s) : removeStar s = s := by
  apply List.filter_eq_self.mpr
  intro c hc
  simp only [decide_eq_true_eq]
  intro he
  exact h (he ▸ hc)

theorem removeStar_cons_star (s : Str) : removeStar ('*' :: s) = removeStar s := by
  simp [removeStar, List.filter]

theorem removeStar_append_star (s : Str) : removeStar (s ++ ['*']) = removeStar s := by
  simp [removeStar, List.filter_append, List.filter]

theorem handleStep_eq_spec (base : Option Str) (dict : List (Str × Record)) (date : Str)
    (tok : Str) (hnd : (dict.map Prod.fst).Nodup) :
    handleStep base dict date tok = specTokenResolve base dict date tok := by
  unfold handleStep specTokenResolve find_key
  by_cases h1 : (decide ('*' ∈ tok) && headIsStar tok) = true
  · rw [if_pos h1, if_pos h1, List.map_map]
    apply List.map_congr_left
    intro kv hkv
    obtain ⟨k, v⟩ := kv
    have hmem : (k, v) ∈ dict := List.mem_of_mem_filter hkv
    exact dictGet_eq_of_mem dict k v _ hnd hmem
  · rw [if_neg h1, if_neg h1]
    by_cases h2 : (decide ('*' ∈ tok) && lastIsStar tok) = true
    · rw [if_pos h2, if_pos h2, List.map_map]
      apply List.map_congr_left
      intro kv hkv
      obtain ⟨k, v⟩ := kv
      have hmem : (k, v) ∈ dict := List.mem_of_mem_filter hkv
      exact dictGet_eq_of_mem dict k v _ hnd hmem
    · rw [if_neg h2, if_neg h2]

theorem handleTokens_eq_flatten (base : Option Str) (dict : List (Str × Record)) (date : Str)
    (tokens : List Str) (h : tokens ≠ []) :
    handleTokens base dict date tokens = (tokens.map (handleStep base dict date)).flatten := by
  unfold handleTokens
  rw [if_neg h, foldl_append_flatten]
  simp

theorem handleStep_mem (base : Option Str) (dict : List (Str × Record)) (date tok : Str) :
    ∀ r ∈ handleStep base dict date tok,
      r ∈ dict.map Prod.snd ∨ r = add_currency_not_found_error base tok date := by
  intro r hr
  unfold handleStep at hr
  split at hr
  · rcases List.mem_map.mp hr with ⟨k, _, hEq⟩
    rcases dictGet_mem_or_eq_dflt dict k (add_currency_not_found_error base tok date) with
      hmem | hdf
    · exact Or.inl (hEq ▸ hmem)
    · exact Or.inr (hEq ▸ hdf)
  · split at hr
    · rcases List.mem_map.mp hr with ⟨k, _, hEq⟩
      rcases dictGet_mem_or_eq_dflt dict k (add_currency_not_found_error base tok date) with
        hmem | hdf
      · exact Or.inl (hEq ▸ hmem)
      · exact Or.inr (hEq ▸ hdf)
    · rcases List.mem_singleton.mp hr with rfl
      rcases dictGet_mem_or_eq_dflt dict tok (add_currency_not_found_error base tok date) with
        hmem | hdf
      · exact Or.inl hmem
      · exact Or.inr hdf

theorem handle_response_mem (base : Option Str) (s : Str) (dict : List (Str × Record))
    (date : Str) :
    ∀ r ∈ handle_response base s dict date,
      r ∈ dict.map Prod.snd ∨ ∃ c, r = add_currency_not_found_error base c date := by
  intro r hr
  unfold handle_response handleTokens at hr
  by_cases h : prepare_tickers s = []
  · rw [if_pos h] at hr
    exact Or.inl hr
  · rw [if_neg h, foldl_append_flatten] at hr
    simp only [List.nil_append] at hr
    rcases List.mem_flatten.mp hr with ⟨l, hl, hrl⟩
    rcases List.mem_map.mp hl with ⟨tok, _, rfl⟩
    rcases handleStep_mem base dict date tok r hrl with hmem | heq
    · exact Or.inl hmem
    · exact Or.inr ⟨tok, heq⟩

theorem validateLoop_error_of_exists (k : MethodKind) (l : List Str)
    (h : ∃ t ∈ l, tickerLenOk k t = false) : validateLoop k l = .error .exception := by
  induction l with
  | nil =>
    obtain ⟨t, ht, _⟩ := h
    cases ht
  | cons hd tl ih =>
    cases hh : tickerLenOk k hd with
    | false => simp [validateLoop, hh]
    | true =>
      simp only [validateLoop, hh, if_true]
      obtain ⟨t, ht, hbad⟩ := h
      rcases List.mem_cons.mp ht with rfl | htl
      · rw [hh] at hbad
        cases hbad
      · exact ih ⟨t, htl, hbad⟩

theorem violatesRule_iff_not_ok (k : MethodKind) (t : Str) :
    violatesRule k t ↔ tickerLenOk k t = false := by
  cases k <;> simp [violatesRule, tickerLenOk]

theorem specRemoveSlashes_eq (s : Str) : specRemoveSlashes s = removeSlash s := by
  induction s with
  | nil => rfl
  | cons c cs ih =>
    simp only [specRemoveSlashes, List.foldr_cons] at *
    rw [ih]
    by_cases h : c = '/'
    · rw [if_pos h]
      simp [removeSlash, List.filter_cons, h]
    · rw [if_neg h]
      simp [removeSlash, List.filter_cons, h]

theorem rstripComma_cons (c : Char) (cs : Str) :
    rstripComma (c :: cs) =
      if rstripComma cs = [] then (if c = ',' then [] else [c])
      else c :: rstripComma cs := by
  unfold rstripComma
  rw [List.reverse_cons, List.dropWhile_append]
  by_cases h : (List.dropWhile (fun x => decide (x = ',')) cs.reverse).isEmpty = true
  · have h2 : (List.dropWhile (fun x => decide (x = ',')) cs.reverse).reverse = [] := by
      rw [List.reverse_eq_nil_iff]
      exact List.isEmpty_iff.mp h
    rw [if_pos h, if_pos h2]
    by_cases hc : c = ','
    · simp [List.dropWhile, hc]
    · simp [List.dropWhile, hc]
  · have h2 : ¬ (List.dropWhile (fun x => decide (x = ',')) cs.reverse).reverse = [] := by
      rw [List.reverse_eq_nil_iff]
      intro hh
      exact h (by rw [hh]; rfl)
    rw [if_neg h, if_neg h2, List.reverse_append]
    simp

theorem specStripTrailingCommas_eq (s : Str) : specStripTrailingCommas s = rstripComma s := by
  induction s with
  | nil => rfl
  | cons c cs ih =>
    rw [rstripComma_cons]
    simp only [specStripTrailingCommas]
    rw [ih]
    rcases hcs : rstripComma cs with _ | ⟨d, ds⟩
    · simp
    · simp

/-! Claim theorems. -/

/-- Claim C7, counterexample: the claim requires a whitespace-only ticker
string to parse to the empty sequence, but a whitespace-only string is
truthy in Python, so `prepare_tickers` runs the pipeline on it and returns
a single empty token, diverging from the parser as the claim words it. -/
theorem c7_counterexample :
    prepare_tickers (" ".toList) = [([] : Str)] ∧
    spec_prepare_tickers_asWritten (" ".toList) = [] ∧
    prepare_tickers (" ".toList) ≠ [] := by
  refine ⟨by decide, by decide, by decide⟩

/-- Claim C7 (amended): for every raw ticker string, `prepare_tickers`
produces the ordered sequence obtained by removing every `/`, stripping
trailing commas, splitting on commas and trimming-and-uppercasing each
token; the empty input string (only) yields the empty sequence, while a
whitespace-only input yields one empty token. -/
theorem c7_prepare_tickers_amended (s : Str) :
    prepare_tickers s = spec_prepare_tickers_amended s := by
  unfold prepare_tickers spec_prepare_tickers_amended specTickerPipeline
  by_cases h : s = []
  · rw [if_pos h, if_pos h]
  · rw [if_neg h, if_neg h, specStripTrailingCommas_eq, specRemoveSlashes_eq]
    rfl

/-- Claim C1, counterexample: the wildcard token `*USD` is requested
against an empty provider dictionary, yet `handle_response` returns the
empty list — no error placeholder is inserted for a wildcard producing
zero matches, so the requested token is silently dropped. -/
theorem c1_counterexample :
    prepare_tickers ("*USD".toList) = ["*USD".toList] ∧
    handle_response none ("*USD".toList) [] ("d".toList) = [] := by
  refine ⟨by decide, by decide⟩

/-- Claim C1 (amended): for every base currency, provider dictionary with
distinct keys and non-empty parsed TickerSpec, `handle_response` is the
token-order concatenation of per-token contributions: an exact token
contributes exactly one entry (the matching record, or one error
placeholder when absent), while a wildcard token contributes exactly its
matching records in dictionary order — in particular zero entries, i.e. a
silent drop, when a wildcard matches nothing. -/
theorem c1_handle_response_per_token (base : Option Str) (s : Str)
    (dict : List (Str × Record)) (date : Str)
    (hnd : (dict.map Prod.fst).Nodup) (hne : prepare_tickers s ≠ []) :
    handle_response base s dict date =
      ((prepare_tickers s).map (specTokenResolve base dict date)).flatten ∧
    ∀ tok ∈ prepare_tickers s, '*' ∉ tok →
      (specTokenResolve base dict date tok).length = 1 := by
  constructor
  · unfold handle_response
    rw [handleTokens_eq_flatten base dict date _ hne]
    congr 1
    apply List.map_congr_left
    intro tok _
    exact handleStep_eq_spec base dict date tok hnd
  · intro tok _ hstar
    unfold specTokenResolve
    have h1 : decide ('*' ∈ tok) = false := by simpa using hstar
    rw [h1]
    simp

/-- Witness for C1's amended theorem at a concrete input: two requested
tokens, one matching and one absent, over a one-entry dictionary. -/
theorem c1_witness :
    handle_response none ("USD,ZZZ".toList) [("USD".toList, sampleUSD)] ("d".toList) =
      ((prepare_tickers ("USD,ZZZ".toList)).map
        (specTokenResolve none [("USD".toList, sampleUSD)] ("d".toList))).flatten ∧
    (specTokenResolve none [("USD".toList, sampleUSD)] ("d".toList) ("USD".toList)).length
      = 1 := by
  have h := c1_handle_response_per_token none ("USD,ZZZ".toList)
    [("USD".toList, sampleUSD)] ("d".toList) (by decide) (by decide)
  exact ⟨h.1, h.2 ("USD".toList) (by decide) (by decide)⟩

/-- Claim C2, counterexample: the error placeholder has *no* `nominal`
key at all — the zero multiplier sits under the `scale` key — so the
claimed invariant (`nominal` equal to `0` on placeholders) fails on the
very first placeholder the normalizer produces. -/
theorem c2_counterexample :
    handle_response none ("USD".toList) [] ("d".toList) =
      [add_currency_not_found_error none ("USD".toList) ("d".toList)] ∧
    (add_currency_not_found_error none ("USD".toList) ("d".toList)).error.isSome = true ∧
    (add_currency_not_found_error none ("USD".toList) ("d".toList)).nominal = none ∧
    (add_currency_not_found_error none ("USD".toList) ("d".toList)).nominal ≠
      some (PyVal.int 0) := by
  refine ⟨by decide, by decide, by decide, by decide⟩

/-- Claim C2 (amended): whenever the provider dictionary holds only real
records (no `error` key, `nominal` present), every record of a normalized
output sequence is either such a real record, or the error placeholder
with `rate` the string `0`, the zero multiplier stored under the `scale`
key (no `nominal` key), and the populated 404 `error`; no record is both
meaningfully populated and erroring. -/
theorem c2_record_invariant (base : Option Str) (s : Str) (dict : List (Str × Record))
    (date : Str)
    (hreal : ∀ kv ∈ dict, kv.2.error = none ∧ kv.2.nominal.isSome = true) :
    ∀ r ∈ handle_response base s dict date,
      (r.error = none ∧ r.nominal.isSome = true) ∨
      (r.rate = PyVal.str strZero ∧ r.scale = some (PyVal.int 0) ∧ r.nominal = none ∧
        r.error = some ⟨str404, strCurrencyNotFound⟩) := by
  intro r hr
  rcases handle_response_mem base s dict date r hr with hmem | ⟨c, rfl⟩
  · rcases List.mem_map.mp hmem with ⟨kv, hkv, rfl⟩
    exact Or.inl (hreal kv hkv)
  · exact Or.inr ⟨rfl, rfl, rfl, rfl⟩

/-- Witness for C2's amended theorem at a concrete input: the placeholder
produced for an unknown ticker over the empty dictionary satisfies the
invariant (via its right disjunct). -/
theorem c2_witness :
    ((add_currency_not_found_error none ("USD".toList) ("d".toList)).error = none ∧
      (add_currency_not_found_error none ("USD".toList) ("d".toList)).nominal.isSome
        = true) ∨
    ((add_currency_not_found_error none ("USD".toList) ("d".toList)).rate
        = PyVal.str strZero ∧
      (add_currency_not_found_error none ("USD".toList) ("d".toList)).scale
        = some (PyVal.int 0) ∧
      (add_currency_not_found_error none ("USD".toList) ("d".toList)).nominal = none ∧
      (add_currency_not_found_error none ("USD".toList) ("d".toList)).error
        = some ⟨str404, strCurrencyNotFound⟩) := by
  exact c2_record_invariant none ("USD".toList) [] ("d".toList)
    (by intro kv h; cases h)
    (add_currency_not_found_error none ("USD".toList) ("d".toList)) (by decide)

/-- Claim C3: an empty parsed TickerSpec returns every dictionary entry
unfiltered in the provider's insertion order; a `*XXX` token selects
exactly the records whose `currency_to` equals `XXX`, an `XXX*` token
exactly those whose `currency_from` equals `XXX` (the `*` is stripped
before the comparison, which is exact string equality on the uppercased
token), and wildcard matches keep dictionary order with no secondary
sort. -/
theorem c3_wildcard_resolution (base : Option Str) (dict : List (Str × Record))
    (date : Str) (s : Str) (xxx : Str) (hstar : '*' ∉ xxx)
    (hnd : (dict.map Prod.fst).Nodup) :
    (prepare_tickers s = [] → handle_response base s dict date = dict.map Prod.snd) ∧
    handleTokens base dict date ['*' :: xxx] =
      (dict.filter (fun kv => decide (kv.2.currency_to = xxx))).map Prod.snd ∧
    (xxx ≠ [] → handleTokens base dict date [xxx ++ ['*']] =
      (dict.filter (fun kv => decide (kv.2.currency_from = xxx))).map Prod.snd) := by
  refine ⟨?_, ?_, ?_⟩
  · intro h
    unfold handle_response handleTokens
    rw [h, if_pos rfl]
  · rw [handleTokens_eq_flatten base dict date _ (by simp)]
    simp only [List.map_cons, List.map_nil, List.flatten_cons, List.flatten_nil,
      List.append_nil]
    rw [handleStep_eq_spec base dict date _ hnd]
    unfold specTokenResolve
    have hm : decide ('*' ∈ ('*' :: xxx)) = true := by simp
    have hh : headIsStar ('*' :: xxx) = true := by simp [headIsStar]
    rw [hm, hh, removeStar_cons_star, removeStar_eq_self xxx hstar]
    simp
  · intro hne
    rw [handleTokens_eq_flatten base dict date _ (by simp)]
    simp only [List.map_cons, List.map_nil, List.flatten_cons, List.flatten_nil,
      List.append_nil]
    rw [handleStep_eq_spec base dict date _ hnd]
    unfold specTokenResolve
    obtain ⟨c, cs, rfl⟩ : ∃ c cs, xxx = c :: cs := by
      cases xxx with
      | nil => exact absurd rfl hne
      | cons c cs => exact ⟨c, cs, rfl⟩
    have hm : decide ('*' ∈ ((c :: cs) ++ ['*'])) = true := by simp
    have hh : headIsStar ((c :: cs) ++ ['*']) = false := by
      have hc : ¬ c = '*' := by
        intro h
        exact hstar (h ▸ List.mem_cons_self c cs)
      simp [headIsStar, hc]
    have hl : lastIsStar ((c :: cs) ++ ['*']) = true := by
      unfold lastIsStar
      rw [List.reverse_append]
      simp [headIsStar]
    rw [hm, hh, hl, removeStar_append_star, removeStar_eq_self _ hstar]
    simp

/-- Witness for C3 at concrete inputs: the empty spec returns the whole
two-entry dictionary; `*EUR` selects the single record quoted in EUR;
`USD*` selects both records based in USD, in dictionary order. -/
theorem c3_witness :
    handle_response none ([] : Str) sampleDict ("d".toList) =
      [sampleUSDEUR, sampleUSDGBP] ∧
    handleTokens none sampleDict ("d".toList) ['*' :: "EUR".toList] = [sampleUSDEUR] ∧
    handleTokens none sampleDict ("d".toList) ["USD".toList ++ ['*']] =
      [sampleUSDEUR, sampleUSDGBP] := by
  have hA := c3_wildcard_resolution none sampleDict ("d".toList) ([] : Str)
    ("EUR".toList) (by decide) (by decide)
  have hB := c3_wildcard_resolution none sampleDict ("d".toList) ([] : Str)
    ("USD".toList) (by decide) (by decide)
  refine ⟨?_, ?_, ?_⟩
  · rw [hA.1 (by decide)]
    decide
  · rw [hA.2.1]
    decide
  · rw [hB.2.2 (by decide)]
    decide

/-- Claim C4: for every adapter variant, whenever some token of the
parsed ticker string violates that variant's length rule (exactly 3
characters for CBRF/ECB, at least 2 for Binance/Garantex, at least 3 for
XE), `validate_tickers` raises (its single validation exception, a bare
`Exception` in the source), and the fetch cycle, which invokes
`validate_tickers` before `make_request`, aborts with no network request
attempted and no config or store write. -/
theorem c4_validation_short_circuit (cfg : RateTypeConfig) (rid : Int)
    (store : List StoredRate) (task_time now : Int)
    (reqResult : Except ReqExc (List Record))
    (hbad : ∃ tok ∈ prepare_tickers cfg.tickers, violatesRule cfg.autoload_method tok) :
    validate_tickers cfg.autoload_method cfg.tickers = .error .exception ∧
    run_currency_rate_checker (some cfg) rid store task_time now reqResult =
      .raised .exception false store := by
  have hval : validate_tickers cfg.autoload_method cfg.tickers = .error .exception := by
    unfold validate_tickers
    apply validateLoop_error_of_exists
    obtain ⟨t, ht, hv⟩ := hbad
    exact ⟨t, ht, (violatesRule_iff_not_ok _ _).mp hv⟩
  refine ⟨hval, ?_⟩
  simp only [run_currency_rate_checker, hval]

/-- Witness for C4 at a concrete input: the CBRF adapter with ticker
string `US` (length 2) raises and the cycle never reaches the request
stage. -/
theorem c4_witness :
    validate_tickers MethodKind.cbrf ("US".toList) = .error .exception ∧
    run_currency_rate_checker (some sampleBadCfg) 1 [] 10 11 (.ok []) =
      .raised .exception false [] := by
  have h := c4_validation_short_circuit sampleBadCfg 1 [] 10 11 (.ok [])
    ⟨"US".toList, by decide, show ("US".toList : Str).length ≠ 3 by decide⟩
  exact ⟨h.1, h.2⟩

/-- Claim C5: when validation passes and the request step fails with a
`RequestException`, the run summary saved to the config is exactly the
single-element list mapping the upstream status code to its reason — or
`500` to `ConnectionError` when no response is available — the store is
left untouched, and the last-run timestamp together with this summary is
still written back. -/
theorem c5_transport_failure (cfg : RateTypeConfig) (rid : Int)
    (store : List StoredRate) (task_time now : Int) (code : Int) (reason : Str)
    (hok : validate_tickers cfg.autoload_method cfg.tickers = .ok ()) :
    run_currency_rate_checker (some cfg) rid store task_time now
        (.error ⟨some (code, reason)⟩) =
      .completed
        { cfg with autoload_lastrun := some task_time,
                   autoload_lastresult := some (.failure [(code, reason)]) } store true ∧
    run_currency_rate_checker (some cfg) rid store task_time now (.error ⟨none⟩) =
      .completed
        { cfg with autoload_lastrun := some task_time,
                   autoload_lastresult := some (.failure [(500, strConnectionError)]) }
        store true := by
  constructor <;> simp only [run_currency_rate_checker, hok]

/-- Witness for C5 at a concrete input: a 503 failure and a
response-less failure over a validating configuration. -/
theorem c5_witness :
    run_currency_rate_checker (some sampleOkCfg) 1 [] 10 11
        (.error ⟨some (503, "Service Unavailable".toList)⟩) =
      .completed
        { sampleOkCfg with
            autoload_lastrun := some 10,
            autoload_lastresult :=
              some (.failure [(503, "Service Unavailable".toList)]) } [] true ∧
    run_currency_rate_checker (some sampleOkCfg) 1 [] 10 11 (.error ⟨none⟩) =
      .completed
        { sampleOkCfg with
            autoload_lastrun := some 10,
            autoload_lastresult := some (.failure [(500, strConnectionError)]) } [] true := by
  have h := c5_transport_failure sampleOkCfg 1 [] 10 11 503
    ("Service Unavailable".toList) rfl
  exact ⟨h.1, h.2⟩

/-- Claim C6 (code bug): the dedup of `create_rate` is defeated by
`CurrencyRate.save`, which overwrites `rate_date` with the save-time
`datetime.now()` (the field is also `auto_now_add`): the stored row's
`rate_date` is the insertion instant, while the existence filter compares
the *parsed quote date*, so — whenever the cycle does not run exactly at
that midnight instant — persisting the same record in two successive
cycles inserts two rows and the second cycle's summary carries no
Duplicate annotation, contradicting the claim. -/
theorem c6_dedup_defeated (rid : Int) (now1 now2 : Int) (r : Record) (d : Int) (q : ℚ)
    (herr : r.error = none) (hd : parseDateEnc r.rate_date = some d)
    (hq : decimalOfPyVal r.rate = some q) (hne : now1 ≠ d) :
    create_rate rid now1 [] [r] =
      ([⟨rid, r.currency_from, r.currency_to, q, now1, r.nominal⟩], .ok [r]) ∧
    create_rate rid now2 [⟨rid, r.currency_from, r.currency_to, q, now1, r.nominal⟩] [r] =
      ([⟨rid, r.currency_from, r.currency_to, q, now1, r.nominal⟩,
        ⟨rid, r.currency_from, r.currency_to, q, now2, r.nominal⟩], .ok [r]) := by
  have herr2 : r.error.isNone = true := by rw [herr]; rfl
  constructor
  · simp [create_rate, herr2, hd, hq]
  · simp [create_rate, herr2, hd, hq, dedupMatch, hne]

/-- Witness for C6 at a concrete input: the same USD record persisted in
two successive cycles at instants distinct from the quote date's
encoding inserts two rows; both summaries are the unannotated record. -/
theorem c6_witness :
    create_rate 1 100 [] [c6Record] =
      ([⟨1, "USD".toList, strRUB, mkRat 181 2, 100, some (PyVal.int 1)⟩], .ok [c6Record]) ∧
    create_rate 1 200 [⟨1, "USD".toList, strRUB, mkRat 181 2, 100, some (PyVal.int 1)⟩]
        [c6Record] =
      ([⟨1, "USD".toList, strRUB, mkRat 181 2, 100, some (PyVal.int 1)⟩,
        ⟨1, "USD".toList, strRUB, mkRat 181 2, 200, some (PyVal.int 1)⟩],
       .ok [c6Record]) := by
  exact c6_dedup_defeated 1 100 200 c6Record 20230608 (mkRat 181 2) rfl
    (by decide) (by decide) (by decide)

/-- Claim C8, counterexample: on the spec's CBRF scenario the output
record's `nominal` is the *string* `1` as parsed from the XML `Nominal`
text by xmltodict, not the integer `1` the claim states. -/
theorem c8_counterexample :
    (cbrf_handle_response ("USD".toList) cbrfScenario).map Record.nominal =
      [some (PyVal.str ("1".toList))] ∧
    some (PyVal.str ("1".toList)) ≠ some (PyVal.int 1) := by
  refine ⟨by decide, by decide⟩

/-- Claim C8 (amended): for the CBRF adapter on the scenario XML (USD
Nominal `1` Value `90,50`; EUR Nominal `1` Value `100,00`) with ticker
string `USD`, the normalized output is exactly one record with
`currency_from` USD, `currency_to` RUB, `rate` the string `90.50` (comma
decimal separator replaced by a dot), `nominal` the string `1` (the XML
text, not an integer), and no error field. -/
theorem c8_cbrf_scenario :
    cbrf_handle_response ("USD".toList) cbrfScenario =
      [{ rate_date := "08.06.2023".toList,
         currency_from := "USD".toList,
         currency_to := strRUB,
         rate := PyVal.str ("90.50".toList),
         nominal := some (PyVal.str ("1".toList)),
         scale := none,
         error := none }] := by
  decide

/-- Claim C9, counterexample: the Garantex per-pair rate lookup indexes
`response.json()[0]`, so an empty trade list — an upstream response with
no usable price — raises `IndexError` instead of degrading to rate 0. -/
theorem c9_counterexample :
    garantex_request_rate [] = .error .indexError ∧
    garantex_request_rate [] ≠ .ok (PyVal.int 0) := by
  refine ⟨rfl, by simp [garantex_request_rate]⟩

/-- Claim C9 (amended): the Binance per-pair rate lookup degrades to rate
`0` whenever the `price` field is absent or falsy, and the Garantex one
degrades to `0` when the trade list is non-empty and its first entry's
`price` is absent or falsy (an empty trade list raises instead); in both
adapters the constructed pair record carries no error field — a degraded
real record, not a ticker-not-found placeholder. -/
theorem c9_rate_degradation (d : PyDict) (ds : List PyDict) (date b q : Str)
    (rate : PyVal)
    (hprice : ∀ v, pdictGet d strPrice = some v → pyTruthy v = false) :
    binance_request_rate d = PyVal.int 0 ∧
    garantex_request_rate (d :: ds) = .ok (PyVal.int 0) ∧
    (binance_make_dct_record date b q rate).error = none ∧
    (garantex_make_dct_record date b q rate).error = none := by
  have hz : pyOrZero (pdictGet d strPrice) = PyVal.int 0 := by
    cases hp : pdictGet d strPrice with
    | none => rfl
    | some v =>
      have hv := hprice v hp
      simp [pyOrZero, hv]
  exact ⟨hz, by simp only [garantex_request_rate, hz], rfl, rfl⟩

/-- Witness for C9 at a concrete input: an empty JSON object (no `price`
key) makes both lookups degrade to 0. -/
theorem c9_witness :
    binance_request_rate [] = PyVal.int 0 ∧
    garantex_request_rate [([] : PyDict)] = .ok (PyVal.int 0) ∧
    (binance_make_dct_record ("d".toList) ("BTC".toList) ("USDT".toList)
      (PyVal.int 0)).error = none := by
  have h := c9_rate_degradation [] [] ("d".toList) ("BTC".toList) ("USDT".toList)
    (PyVal.int 0) (by intro v hv; cases hv)
  exact ⟨h.1, h.2.1, h.2.2.1⟩

/-- Claim C10: for every adapter and not-found token, the generated error
placeholder's `currency_from` is the requested token and its
`currency_to` is the configured base currency when that is set and
non-empty, and otherwise the requested token itself — so with no base
currency the placeholder has `currency_from` equal to `currency_to`. -/
theorem c10_placeholder_currencies (base : Option Str) (c date : Str) :
    (add_currency_not_found_error base c date).currency_from = c ∧
    (∀ s, base = some s → s ≠ [] →
      (add_currency_not_found_error base c date).currency_to = s) ∧
    (base = none ∨ base = some [] →
      (add_currency_not_found_error base c date).currency_to = c ∧
      (add_currency_not_found_error base c date).currency_from =
        (add_currency_not_found_error base c date).currency_to) := by
  refine ⟨rfl, ?_, ?_⟩
  · intro s hs hne
    subst hs
    simp [add_currency_not_found_error, hne]
  · intro hb
    rcases hb with rfl | rfl
    · exact ⟨rfl, rfl⟩
    · exact ⟨by simp [add_currency_not_found_error], by simp [add_currency_not_found_error]⟩

/-- Witness for C10 at concrete inputs: with no base currency the
placeholder is quoted against the token itself; with base `EUR` it is
quoted against `EUR`. -/
theorem c10_witness :
    (add_currency_not_found_error none ("USD".toList) ("d".toList)).currency_to =
      "USD".toList ∧
    (add_currency_not_found_error (some ("EUR".toList)) ("USD".toList)
      ("d".toList)).currency_to = "EUR".toList := by
  have h1 := c10_placeholder_currencies none ("USD".toList) ("d".toList)
  have h2 := c10_placeholder_currencies (some ("EUR".toList)) ("USD".toList) ("d".toList)
  exact ⟨(h1.2.2 (Or.inl rfl)).1, h2.2.1 ("EUR".toList) rfl (by decide)⟩

end CurrencyRates
